import Mathlib

/-!
Shallow embedding of the leave-accrual / working-day calculation engine of the
annual-leave-calculator repository (src/src/lib/calc/*), together with proofs of
the specification claims C1..C10.

Modelling conventions:
* JavaScript `number` values carrying hour/day amounts are modelled as `ℚ`
  (all claim-relevant arithmetic is exact in both models); counts and calendar
  fields are `ℤ`/`ℕ`.
* A JavaScript `Date` that holds a valid time value is modelled by its UTC
  calendar fields (`JDate`); an *Invalid Date* (`NaN` time value) is modelled
  by `Option.none` at the points where the source can produce one.
* `Date.UTC` field normalisation (month/day overflow, the 0..99 → 1900..1999
  two-digit-year rule, the ±1e8-days range limit) is modelled by `dateUTC`
  via the standard civil-calendar day-numbering pair `daysFromCivil` /
  `civilFromDays`; `Date.prototype.getTime` is `86400000 * daysFromCivil ...`.
* JavaScript strings are Lean `String`s; `split`, `trim`, `padStart`,
  `String(n)`, `parseInt` and `Number` are modelled character-exactly on
  `s.data` (for `Number`/`parseInt` only the decimal-digit forms are modelled,
  which are the only forms reachable from the regex/validator-guarded call
  sites of this code base; any other content yields an invalid date, as the
  surrounding guards ensure it does in the source).
-/

/-! ### Character and digit-string helpers (models of JS string primitives) -/

/-- Structural worker for `natToDigits` (`fuel ≥ n` suffices; structural
recursion keeps the definition kernel-computable). -/
def natToDigitsGo : ℕ → ℕ → List Char → List Char
  | 0, n, acc => Char.ofNat (48 + n % 10) :: acc
  | fuel + 1, n, acc =>
    if n < 10 then Char.ofNat (48 + n) :: acc
    else natToDigitsGo fuel (n / 10) (Char.ofNat (48 + n % 10) :: acc)

/-- Decimal digits of `n`, as JavaScript `String(n)` produces for a
non-negative integer. -/
def natToDigits (n : ℕ) : List Char :=
  natToDigitsGo n n []

theorem natToDigitsGo_append : ∀ (fuel n : ℕ) (acc : List Char),
    natToDigitsGo fuel n acc = natToDigitsGo fuel n [] ++ acc := by
  intro fuel
  induction fuel with
  | zero => intro n acc; rfl
  | succ f ih =>
    intro n acc
    by_cases h : n < 10
    · rw [natToDigitsGo, natToDigitsGo, if_pos h, if_pos h]
      rfl
    · rw [natToDigitsGo, natToDigitsGo, if_neg h, if_neg h,
        ih _ (Char.ofNat (48 + n % 10) :: acc), ih _ [Char.ofNat (48 + n % 10)]]
      simp

theorem natToDigitsGo_fuel : ∀ (f1 f2 n : ℕ), n ≤ f1 → n ≤ f2 →
    natToDigitsGo f1 n [] = natToDigitsGo f2 n [] := by
  intro f1
  induction f1 with
  | zero =>
    intro f2 n h1 h2
    interval_cases n
    cases f2 <;> rfl
  | succ f ih =>
    intro f2 n h1 h2
    by_cases h : n < 10
    · cases f2 with
      | zero =>
        interval_cases n
        rfl
      | succ g => rw [natToDigitsGo, natToDigitsGo, if_pos h, if_pos h]
    · cases f2 with
      | zero => omega
      | succ g =>
        rw [natToDigitsGo, natToDigitsGo, if_neg h, if_neg h,
          natToDigitsGo_append f, natToDigitsGo_append g]
        have hd : n / 10 < n := Nat.div_lt_self (by omega) (by omega)
        rw [ih g (n / 10) (by omega) (by omega)]

/-- The usual recursion equation for the decimal-digit rendering. -/
theorem natToDigits_eq (n : ℕ) : natToDigits n =
    if n < 10 then [Char.ofNat (48 + n)]
    else natToDigits (n / 10) ++ [Char.ofNat (48 + n % 10)] := by
  by_cases h : n < 10
  · rw [if_pos h]
    unfold natToDigits
    cases n with
    | zero => rfl
    | succ k => rw [natToDigitsGo, if_pos h]
  · rw [if_neg h]
    unfold natToDigits
    obtain ⟨k, rfl⟩ : ∃ k, n = k + 1 := ⟨n - 1, by omega⟩
    have hd : (k + 1) / 10 < k + 1 := Nat.div_lt_self (by omega) (by omega)
    rw [natToDigitsGo, if_neg h, natToDigitsGo_append,
      natToDigitsGo_fuel k ((k + 1) / 10) ((k + 1) / 10) (by omega) le_rfl]

/-- Numeric value of a digit string (leading zeros allowed); the common core of
the models of `Number(s)` and `parseInt(s, 10)` on digit strings. -/
def foldDigits (l : List Char) : ℕ :=
  l.foldl (fun a c => 10 * a + (c.toNat - 48)) 0

theorem digitChar_isDigit (n : ℕ) (h : n < 10) : (Char.ofNat (48 + n)).isDigit = true := by
  simp only [Char.isDigit, Char.ofNat]
  interval_cases n <;> decide

theorem digitChar_toNat (n : ℕ) (h : n < 10) : (Char.ofNat (48 + n)).toNat = 48 + n := by
  interval_cases n <;> decide

theorem natToDigits_ne_nil (n : ℕ) : natToDigits n ≠ [] := by
  rw [natToDigits_eq]
  split <;> simp

theorem natToDigits_all_digit (n : ℕ) : ∀ c ∈ natToDigits n, c.isDigit = true := by
  induction n using Nat.strong_induction_on with
  | _ n ih =>
    rw [natToDigits_eq]
    by_cases h : n < 10
    · rw [if_pos h]
      intro c hc
      simp only [List.mem_singleton] at hc
      subst hc
      exact digitChar_isDigit n h
    · rw [if_neg h]
      intro c hc
      rcases List.mem_append.mp hc with hc | hc
      · exact ih (n / 10) (Nat.div_lt_self (by omega) (by omega)) c hc
      · simp only [List.mem_singleton] at hc
        subst hc
        exact digitChar_isDigit (n % 10) (Nat.mod_lt _ (by omega))

theorem foldDigits_natToDigits_aux (n : ℕ) : ∀ a : ℕ,
    (natToDigits n).foldl (fun a c => 10 * a + (c.toNat - 48)) a =
      a * 10 ^ (natToDigits n).length + n := by
  induction n using Nat.strong_induction_on with
  | _ n ih =>
    intro a
    rw [natToDigits_eq]
    by_cases h : n < 10
    · rw [if_pos h]
      simp [digitChar_toNat n h]
      omega
    · rw [if_neg h]
      rw [List.foldl_append, ih (n / 10) (Nat.div_lt_self (by omega) (by omega)) a]
      have hm : n % 10 < 10 := Nat.mod_lt _ (by omega)
      simp [digitChar_toNat (n % 10) hm, pow_succ]
      ring_nf
      omega

/-- The digit rendering of `n` evaluates back to `n`. -/
theorem foldDigits_natToDigits (n : ℕ) : foldDigits (natToDigits n) = n := by
  unfold foldDigits
  rw [foldDigits_natToDigits_aux]
  simp

/-- Model of JavaScript `String(i)` for an integer-valued number. -/
def intToString (i : ℤ) : String :=
  if i < 0 then String.mk ('-' :: natToDigits (-i).toNat)
  else String.mk (natToDigits i.toNat)

/-- Model of `String(i).padStart(2, '0')`. -/
def padTwo (i : ℤ) : List Char :=
  let l := (intToString i).data
  List.replicate (2 - l.length) '0' ++ l

/-- Model of JavaScript `s.split(sep)` for a one-character separator: cut at
every occurrence, keeping empty pieces. -/
def chSplit (sep : Char) : List Char → List (List Char)
  | [] => [[]]
  | c :: rest =>
    if c = sep then [] :: chSplit sep rest
    else
      match chSplit sep rest with
      | [] => [[c]]
      | h :: t => (c :: h) :: t

theorem chSplit_ne_nil (sep : Char) (l : List Char) : chSplit sep l ≠ [] := by
  induction l with
  | nil => simp [chSplit]
  | cons c rest ih =>
    unfold chSplit
    split
    · simp
    · cases h : chSplit sep rest <;> simp

/-- A separator-free list splits to the singleton piece. -/
theorem chSplit_of_not_mem (sep : Char) (l : List Char) (hl : sep ∉ l) :
    chSplit sep l = [l] := by
  induction l with
  | nil => rfl
  | cons c rest ih =>
    simp only [List.mem_cons, not_or] at hl
    unfold chSplit
    rw [if_neg (fun h => hl.1 h.symm), ih hl.2]

/-- Splitting peels off one separator-free piece at a time. -/
theorem chSplit_append (sep : Char) (A rest : List Char) (hA : sep ∉ A) :
    chSplit sep (A ++ sep :: rest) = A :: chSplit sep rest := by
  induction A with
  | nil => simp [chSplit]
  | cons c A' ih =>
    simp only [List.mem_cons, not_or] at hA
    have hc : ¬(c = sep) := fun h => hA.1 h.symm
    rw [List.cons_append, chSplit, if_neg hc, ih hA.2]

/-- The whitespace class of JavaScript `trim` / the regex `\s`, restricted to
the ASCII whitespace characters (the only ones this code base can receive from
its own formatting; exotic Unicode space characters are not modelled). -/
def jsWhitespace (c : Char) : Bool :=
  c = ' ' || c = '\t' || c = '\n' || c = '\r' || c = '\x0b' || c = '\x0c'

/-- Model of JavaScript `s.trim()`. -/
def jsTrim (l : List Char) : List Char :=
  ((l.dropWhile jsWhitespace).reverse.dropWhile jsWhitespace).reverse

/-- Separator class of `normalizeDateInput`'s split regex (dash, slash, dot or
whitespace). -/
def isSepCh (c : Char) : Bool :=
  c = '-' || c = '/' || c = '.' || jsWhitespace c

theorem dropWhileLengthLe (p : Char → Bool) (l : List Char) :
    (l.dropWhile p).length ≤ l.length := by
  induction l with
  | nil => simp [List.dropWhile]
  | cons c rest ih =>
    simp only [List.dropWhile]
    split
    · exact Nat.le_succ_of_le ih
    · simp

/-- Model of JavaScript split on the one-or-more-separators regex of
`normalizeDateInput`: cut at every maximal run of separator characters (an
empty piece appears at an end that starts or ends with a run; consecutive
separators are absorbed into one run by peeking at the next character). -/
def splitSepRuns : List Char → List (List Char)
  | [] => [[]]
  | c :: rest =>
    if isSepCh c then
      match rest with
      | r1 :: _ => if isSepCh r1 then splitSepRuns rest else [] :: splitSepRuns rest
      | [] => [] :: splitSepRuns rest
    else
      match splitSepRuns rest with
      | [] => [[c]]
      | h :: t => (c :: h) :: t

/-! ### Civil (proleptic Gregorian) calendar core: the model of `Date.UTC`
normalisation and of UTC field extraction. -/

/-- UTC calendar fields of a JavaScript `Date` holding a valid time value. -/
structure JDate where
  y : ℤ
  m : ℤ
  d : ℤ
deriving DecidableEq, Repr

/-- Day number (days since 1970-01-01) of a civil date; the field `d` may lie
outside the month, in which case the date denotes the correspondingly
overflowed day exactly as `Date.UTC` day-normalisation does. Standard civil
calendar algorithm. -/
def daysFromCivil (y m d : ℤ) : ℤ :=
  let y1 := if m ≤ 2 then y - 1 else y
  let era := y1 / 400
  let yoe := y1 - era * 400
  let mp := (m + 9) % 12
  let doy := (153 * mp + 2) / 5 + d - 1
  let doe := yoe * 365 + yoe / 4 - yoe / 100 + doy
  era * 146097 + doe - 719468

/-- Civil date of a day number; inverse of `daysFromCivil` on real dates.
Standard civil calendar algorithm. -/
def civilFromDays (z0 : ℤ) : JDate :=
  let z := z0 + 719468
  let era := z / 146097
  let doe := z - era * 146097
  let yoe := (doe - doe / 1460 + doe / 36524 - doe / 146096) / 365
  let y := yoe + era * 400
  let doy := doe - (365 * yoe + yoe / 4 - yoe / 100)
  let mp := (5 * doy + 2) / 153
  let d := doy - (153 * mp + 2) / 5 + 1
  let m := mp + (if mp < 10 then 3 else -9)
  ⟨y + (if m ≤ 2 then 1 else 0), m, d⟩

/-- The civil date of any day number has a month in 1..12 and a day ≥ 1 (so
every date a JS `Date` can hold has normalised fields). -/
theorem civilFromDays_bounds (z : ℤ) :
    1 ≤ (civilFromDays z).m ∧ (civilFromDays z).m ≤ 12 ∧ 1 ≤ (civilFromDays z).d := by
  simp only [civilFromDays]
  refine ⟨?_, ?_, ?_⟩ <;> omega

/-- Number of days in a civil month (with the Gregorian leap rule). -/
def daysInMonth (y m : ℤ) : ℤ :=
  if m = 2 then (if y % 4 = 0 ∧ y % 100 ≠ 0 ∨ y % 400 = 0 then 29 else 28)
  else if m = 4 ∨ m = 6 ∨ m = 9 ∨ m = 11 then 30 else 31

/-- Model of `new Date(Date.UTC(y, m - 1, d))` read back through the `getUTC*`
accessors: the 0..99 year substitution, month/day normalisation, and the
±100000000-day range limit beyond which the date is invalid (`none`). -/
def dateUTC (y m d : ℤ) : Option JDate :=
  let y1 := if 0 ≤ y ∧ y ≤ 99 then y + 1900 else y
  let t := y1 * 12 + (m - 1)
  let y2 := t / 12
  let m2 := t % 12 + 1
  let days := daysFromCivil y2 m2 1 + (d - 1)
  if days < -100000000 ∨ 100000000 < days then none else some (civilFromDays days)

/-- A valid date produced by `dateUTC` is the civil date of some day number. -/
theorem dateUTC_eq_civil (y m d : ℤ) (dt : JDate) (h : dateUTC y m d = some dt) :
    ∃ z, dt = civilFromDays z := by
  simp only [dateUTC] at h
  rcases ite_eq_iff.mp h with ⟨_, h2⟩ | ⟨_, h2⟩
  · exact absurd h2 (by simp)
  · exact ⟨_, ((Option.some.injEq _ _).mp h2).symm⟩

/-- Any valid date produced by `dateUTC` has normalised fields. -/
theorem dateUTC_bounds (y m d : ℤ) (dt : JDate) (h : dateUTC y m d = some dt) :
    1 ≤ dt.m ∧ dt.m ≤ 12 ∧ 1 ≤ dt.d := by
  obtain ⟨z, rfl⟩ := dateUTC_eq_civil y m d dt h
  exact civilFromDays_bounds z

/-! ### dateUtils.ts -/

/-- Numeric value of one piece of a split date string, as JavaScript
`Number(piece)` yields on the pieces this code can meet: the empty string is
`0`, a digit string is its value, anything else is `NaN` (`none`).
(Other JS numeric literal forms — signs, decimals, exponents, hex — cannot
reach `parseDate`'s pieces through the regex- and validator-guarded call
sites, and are mapped to `none` like any non-numeric piece.) -/
def jsNumberOfPart (l : List Char) : Option ℤ :=
  if l.isEmpty then some 0
  else if l.all Char.isDigit then some (foldDigits l) else none

/-- Model of `parseDate` (dateUtils.ts): split on `-`, convert the first three
pieces with `Number`, build the date with `Date.UTC`; `none` is JavaScript's
*Invalid Date* (fewer than three pieces leaves a component `undefined`, hence
`NaN`). -/
def parseDate (s : String) : Option JDate :=
  match chSplit '-' s.data with
  | ys :: ms :: ds :: _ => do
    let y ← jsNumberOfPart ys
    let m ← jsNumberOfPart ms
    let d ← jsNumberOfPart ds
    dateUTC y m d
  | _ => none

/-- Model of `formatDate` (dateUtils.ts): year unpadded (as JS `String(year)`),
month and day padded with `padStart(2, '0')`. -/
def formatDate (dt : JDate) : String :=
  String.mk ((intToString dt.y).data ++ '-' :: padTwo dt.m ++ '-' :: padTwo dt.d)

/-- The anchored 4-digit dash 2-digit dash 2-digit regex of
`isValidDateString`. -/
def isDateShape (l : List Char) : Bool :=
  match l with
  | [c1, c2, c3, c4, s1, c5, c6, s2, c7, c8] =>
    c1.isDigit && c2.isDigit && c3.isDigit && c4.isDigit && s1 = '-' &&
      c5.isDigit && c6.isDigit && s2 = '-' && c7.isDigit && c8.isDigit
  | _ => false

/-- Model of `isValidDateString` (dateUtils.ts): the regex test, then the
parse→format round-trip (`!isNaN(date.getTime())` is `parseDate s ≠ none`;
a regex-matching string always yields in-range `Date.UTC` arguments, so the
time value is never `NaN` for other reasons). -/
def isValidDateString (s : String) : Bool :=
  isDateShape s.data &&
    match parseDate s with
    | some dt => formatDate dt == s
    | none => false

/-- Result record of `calculateServicePeriod`. -/
structure ServicePeriod where
  years : ℤ
  months : ℤ
  totalMonths : ℤ
deriving DecidableEq, Repr

/-- Field-level core of `calculateServicePeriod` on two parsed dates. -/
def servicePeriodOf (hire asOf : JDate) : ServicePeriod :=
  let years := asOf.y - hire.y
  let months0 := asOf.m - hire.m
  let months1 := if asOf.d < hire.d then months0 - 1 else months0
  let p : ℤ × ℤ := if months1 < 0 then (years - 1, months1 + 12) else (years, months1)
  ⟨p.1, p.2, p.1 * 12 + p.2⟩

/-- Model of `calculateServicePeriod` (dateUtils.ts). `none` corresponds to the
NaN-filled record JavaScript produces from an invalid parse (never consumed:
every caller validates the strings first). -/
def calculateServicePeriod (hireDate asOfDate : String) : Option ServicePeriod :=
  match parseDate hireDate, parseDate asOfDate with
  | some hire, some asOf => some (servicePeriodOf hire asOf)
  | _, _ => none

/-- `getTime()` of a parsed date (milliseconds since the epoch). -/
def getTimeJ (dt : JDate) : ℤ :=
  86400000 * daysFromCivil dt.y dt.m dt.d

/-- Model of `isBefore` (dateUtils.ts); comparisons against an invalid date's
`NaN` time value are false. -/
def isBefore (date1 date2 : String) : Bool :=
  match parseDate date1, parseDate date2 with
  | some d1, some d2 => getTimeJ d1 < getTimeJ d2
  | _, _ => false

/-- Model of `isAfter` (dateUtils.ts). -/
def isAfter (date1 date2 : String) : Bool :=
  match parseDate date1, parseDate date2 with
  | some d1, some d2 => getTimeJ d2 < getTimeJ d1
  | _, _ => false

/-- `String(n)` for the `ℕ`-valued numbers of `normalizeDateInput`. -/
def natToString (n : ℕ) : String :=
  String.mk (natToDigits n)

/-- `String(n).padStart(2, '0')` for the `ℕ`-valued month/day of
`normalizeDateInput`. -/
def padTwoNat (n : ℕ) : List Char :=
  List.replicate (2 - (natToDigits n).length) '0' ++ natToDigits n

/-- Model of `normalizeDateInput` (dateUtils.ts). -/
def normalizeDateInput (input : String) : Option String :=
  let trimmed := jsTrim input.data
  if trimmed.isEmpty then none
  else
    match splitSepRuns trimmed with
    | [yearStr, monthStr, dayStr] =>
      if ¬(yearStr.length = 4 ∧ yearStr.all Char.isDigit) then none
      else
        let year := foldDigits yearStr
        if ¬(1 ≤ monthStr.length ∧ monthStr.length ≤ 2 ∧ monthStr.all Char.isDigit) then none
        else
          let month := foldDigits monthStr
          if month < 1 ∨ 12 < month then none
          else if ¬(1 ≤ dayStr.length ∧ dayStr.length ≤ 2 ∧ dayStr.all Char.isDigit) then none
          else
            let day := foldDigits dayStr
            if day < 1 ∨ 31 < day then none
            else
              let normalized :=
                String.mk (natToDigits year ++ '-' :: padTwoNat month ++ '-' :: padTwoNat day)
              if isValidDateString normalized then some normalized else none
    | _ => none

/-- `parseInt(piece, 10)` on a piece of a split date string: value of the
longest digit prefix, `NaN` (`none`) if there is none. (Sign/whitespace
prefixes cannot occur on the validated strings this is applied to.) -/
def jsParseIntHead (l : List Char) : Option ℤ :=
  let ds := l.takeWhile Char.isDigit
  if ds.isEmpty then none else some (foldDigits ds)

/-- `parseInt(s.split('-')[0])`, as used on hire dates in lib/calc/index.ts. -/
def hireYearOf (s : String) : Option ℤ :=
  match chSplit '-' s.data with
  | ys :: _ => jsParseIntHead ys
  | [] => none

/-- `parseInt(s.split('-')[1])`, as used on hire dates in lib/calc/index.ts
(a missing piece is `undefined`, hence `NaN`). -/
def hireMonthOf (s : String) : Option ℤ :=
  match chSplit '-' s.data with
  | _ :: ms :: _ => jsParseIntHead ms
  | _ => none

/-! ### policies/default.ts and policyEngine.ts -/

/-- Model of `getYearlyDays` (policies/default.ts). -/
def getYearlyDays (y : ℤ) : ℤ :=
  if y < 1 then 0 else min (15 + (y - 1) / 2) 25

/-- Model of `calculateDefaultAccruedDays` (policies/default.ts); `none` is the
NaN-poisoned result of unparseable inputs (every caller validates first). The
`for` loop accumulating `getYearlyDays` over `y = 1..years` is the fold over
`List.range`. -/
def calculateDefaultAccruedDays (hireDate asOfDate : String) : Option ℤ :=
  match parseDate hireDate, parseDate asOfDate with
  | some hire, some asOf =>
    let sp := servicePeriodOf hire asOf
    if getTimeJ asOf < getTimeJ hire then some 0
    else if sp.years < 1 then some (min sp.totalMonths 11)
    else some ((List.range sp.years.toNat).foldl (fun acc (i : ℕ) => acc + getYearlyDays ((i : ℤ) + 1)) 11)
  | _, _ => none

/-- Policy configuration (`{type: string}`). -/
structure PolicyConfig where
  type : String
deriving DecidableEq, Repr

/-- Model of `getAccruedDays` (policyEngine.ts): the registry holds only the
`DEFAULT` entry, and an unknown type logs a warning and falls back to
`DEFAULT`, so every lookup computes the default policy. -/
def getAccruedDays (hireDate asOfDate : String) (policyConfig : PolicyConfig) : Option ℤ :=
  if policyConfig.type = "DEFAULT" then calculateDefaultAccruedDays hireDate asOfDate
  else calculateDefaultAccruedDays hireDate asOfDate

/-! ### formatters.ts -/

/-- `Math.trunc` on an exact rational (truncation toward zero, i.e.
T-division of the numerator by the denominator). -/
def jsTrunc (q : ℚ) : ℤ :=
  Int.tdiv q.num q.den

/-- `Math.floor` on an exact rational (Euclidean division by the positive
denominator is floor division). -/
def jsFloorQ (q : ℚ) : ℤ :=
  q.num / (q.den : ℤ)

/-- `Math.abs` on an integer. -/
def jsAbsZ (i : ℤ) : ℤ :=
  if i < 0 then -i else i

/-- Decimal rendering of a number: exact for integer-valued numbers (the only
values the claims touch); non-integer rationals are rendered as
`numerator/denominator`, a placeholder for JS float printing that no
claim-relevant call can reach. -/
def jsNumToString (q : ℚ) : String :=
  if q.den = 1 then intToString q.num
  else intToString q.num ++ "/" ++ natToString q.den

/-- Model of `formatHoursAsDaysHours` (formatters.ts): sign from the raw
value, split of the truncated absolute value into days (`Math.floor`) and
remainder hours (JS `%`, which is `a - b * trunc(a / b)`). -/
def formatHoursAsDaysHours (hours workHoursPerDay : ℚ) : String :=
  let sign := if hours < 0 then "-" else ""
  let habs : ℤ := jsAbsZ (jsTrunc hours)
  let days : ℤ := jsFloorQ ((habs : ℚ) / workHoursPerDay)
  let remH : ℚ := (habs : ℚ) - workHoursPerDay * (jsTrunc ((habs : ℚ) / workHoursPerDay) : ℚ)
  if days = 0 ∧ remH = 0 then "0일 0시간"
  else if days = 0 then sign ++ jsNumToString remH ++ "시간"
  else if remH = 0 then sign ++ intToString days ++ "일"
  else sign ++ intToString days ++ "일 " ++ jsNumToString remH ++ "시간"

/-- Model of `hoursToDays` (formatters.ts): plain division, no rounding. -/
def hoursToDays (hours workHoursPerDay : ℚ) : ℚ :=
  hours / workHoursPerDay

/-! ### lib/calc/index.ts: data types -/

/-- `Number.isInteger`. -/
def isIntegerQ (q : ℚ) : Bool :=
  q.den = 1

/-- Usage record (lifetime mode); only the fields the computation reads are
modelled (`id`, `memo`, `tag` are carried opaquely by the source). -/
structure UsageRecord where
  date : String
  amountHours : ℚ
deriving DecidableEq, Repr

/-- Annual-leave record (per-year mode); computation-relevant fields only. -/
structure AnnualLeaveRecord where
  date : String
  amountHours : ℚ
deriving DecidableEq, Repr

/-- Input of `calculate` (AUTO_TOTAL mode). -/
structure CalculationInput where
  hireDate : String
  asOfDate : String
  workHoursPerDay : ℚ
  usedHoursTotal : Option ℚ
  usageRecords : Option (List UsageRecord)
  policyConfig : PolicyConfig

/-- Input of `calculateYearRemain` (YEAR_REMAIN mode). `year` is an integer in
the model (the source also guards with `Number.isInteger`, which the `ℤ` type
discharges). -/
structure YearRemainInput where
  year : ℤ
  hireDate : String
  carryDays : ℚ
  workHoursPerDay : ℚ
  annualLeaveRecords : List AnnualLeaveRecord
  policyConfig : PolicyConfig

/-- Result of validation: collected error and warning messages. -/
structure ValidationResult where
  isValid : Bool
  errors : List String
  warnings : List String
deriving DecidableEq, Repr

/-- Result of `calculate`. -/
structure CalculationResult where
  servicePeriod : ServicePeriod
  accruedHoursTotal : ℚ
  usedHoursTotal : ℚ
  remainingHours : ℚ
  accruedDaysTotal : ℚ
  usedDaysTotal : ℚ
  remainingDays : ℚ
  accruedPretty : String
  usedPretty : String
  remainingPretty : String
deriving DecidableEq, Repr

/-- Result of `calculateYearRemain`. -/
structure YearRemainResult where
  year : ℤ
  tenureYears : ℤ
  yearlyGrantDays : ℤ
  yearlyGrantHours : ℚ
  carryDays : ℚ
  carryHours : ℚ
  availableDays : ℚ
  availableHours : ℚ
  usedDays : ℚ
  usedHours : ℚ
  remainingDays : ℚ
  remainingHours : ℚ
  yearlyGrantPretty : String
  carryPretty : String
  availablePretty : String
  usedPretty : String
  remainingPretty : String
deriving DecidableEq, Repr

/-! ### lib/calc/index.ts: validation -/

/-- Errors one usage record contributes in `validateInput` (the `forEach`
body's `errors.push` calls, in source order). -/
def usageRecordErrors (i : ℕ) (r : UsageRecord) : List String :=
  (if ¬isValidDateString r.date then
    ["사용내역 " ++ natToString (i + 1) ++ "번: 날짜가 유효하지 않습니다."] else []) ++
  (if r.amountHours ≤ 0 then
    ["사용내역 " ++ natToString (i + 1) ++ "번: 사용시간은 0보다 커야 합니다."] else []) ++
  (if ¬isIntegerQ r.amountHours then
    ["사용내역 " ++ natToString (i + 1) ++ "번: 사용시간은 정수여야 합니다."] else [])

/-- Warnings one usage record contributes in `validateInput` (the `else if`
branch flagging future-dated records). -/
def usageRecordWarnings (asOfDate : String) (i : ℕ) (r : UsageRecord) : List String :=
  if isValidDateString r.date ∧ isValidDateString asOfDate ∧ isAfter r.date asOfDate then
    ["사용내역 " ++ natToString (i + 1) ++ "번: 기준일(" ++ asOfDate ++
      ") 이후 사용내역은 합산에서 제외됩니다."]
  else []

/-- Model of `validateInput` (index.ts): each `errors.push` site contributes
its message list in source order; `isValid` iff no error was collected. -/
def validateInput (input : CalculationInput) : ValidationResult :=
  let e1 := if ¬isValidDateString input.hireDate then
    ["입사일이 유효하지 않습니다. (YYYY-MM-DD 형식)"] else []
  let e2 := if ¬isValidDateString input.asOfDate then
    ["기준일이 유효하지 않습니다. (YYYY-MM-DD 형식)"] else []
  let e3 := if isValidDateString input.hireDate ∧ isValidDateString input.asOfDate ∧
      isAfter input.hireDate input.asOfDate then
    ["기준일은 입사일 이후여야 합니다."] else []
  let e4 := if input.workHoursPerDay ≤ 0 ∨ 24 < input.workHoursPerDay then
    ["1일 근로시간은 0보다 크고 24 이하여야 합니다."] else []
  let e5 := match input.usedHoursTotal with
    | some u =>
      (if u < 0 then ["사용 시간은 0 이상이어야 합니다."] else []) ++
      (if ¬isIntegerQ u then ["사용 시간은 정수여야 합니다."] else [])
    | none => []
  let e6 := match input.usageRecords with
    | some records => (records.enum).flatMap (fun p => usageRecordErrors p.1 p.2)
    | none => []
  let w := match input.usageRecords with
    | some records => (records.enum).flatMap (fun p => usageRecordWarnings input.asOfDate p.1 p.2)
    | none => []
  let errors := e1 ++ e2 ++ e3 ++ e4 ++ e5 ++ e6
  ⟨errors.isEmpty, errors, w⟩

/-- Model of `isDateInYear` (index.ts). -/
def isDateInYear (date : String) (year : ℤ) : Bool :=
  isValidDateString date &&
    match hireYearOf date with
    | some dy => dy = year
    | none => false

/-- Errors one annual-leave record contributes in `validateYearRemainInput`. -/
def annualRecordErrors (year : ℤ) (i : ℕ) (r : AnnualLeaveRecord) : List String :=
  (if ¬isValidDateString r.date then
    ["연차 " ++ natToString (i + 1) ++ "번: 날짜가 유효하지 않습니다."]
  else if ¬isDateInYear r.date year then
    ["연차 " ++ natToString (i + 1) ++ "번: 날짜가 " ++ intToString year ++ "년 범위 밖입니다."]
  else []) ++
  (if r.amountHours ≤ 0 then
    ["연차 " ++ natToString (i + 1) ++ "번: 사용시간은 0보다 커야 합니다."] else []) ++
  (if ¬isIntegerQ r.amountHours then
    ["연차 " ++ natToString (i + 1) ++ "번: 사용시간은 정수여야 합니다."] else [])

/-- Model of `validateYearRemainInput` (index.ts). (`year` is `ℤ`, so the
source's `Number.isInteger(input.year)` guard is always satisfied.) -/
def validateYearRemainInput (input : YearRemainInput) : ValidationResult :=
  let e1 := if input.year < 1900 ∨ 2100 < input.year then
    ["기준연도가 유효하지 않습니다."] else []
  let e2 := if ¬isValidDateString input.hireDate then
    ["입사일이 유효하지 않습니다. (YYYY-MM-DD 형식)"] else []
  let e3 := if isValidDateString input.hireDate then
    match hireYearOf input.hireDate with
    | some hy => if input.year < hy then ["입사일이 기준연도보다 이후입니다."] else []
    | none => []
  else []
  let e4 := if input.carryDays < 0 then ["이월 연차는 0 이상이어야 합니다."] else []
  let e5 := if input.workHoursPerDay ≤ 0 ∨ 24 < input.workHoursPerDay then
    ["1일 근로시간은 0보다 크고 24 이하여야 합니다."] else []
  let e6 := (input.annualLeaveRecords.enum).flatMap (fun p => annualRecordErrors input.year p.1 p.2)
  let errors := e1 ++ e2 ++ e3 ++ e4 ++ e5 ++ e6
  ⟨errors.isEmpty, errors, []⟩

/-! ### lib/calc/index.ts: computation -/

/-- Model of `calculateYearUsedHours` (index.ts): unconditional sum. -/
def calculateYearUsedHours (annualLeaveRecords : List AnnualLeaveRecord) : ℚ :=
  annualLeaveRecords.foldl (fun sum r => sum + r.amountHours) 0

/-- Model of `calculateUsedHours` (index.ts): a present *non-empty* list is
summed over the records with a valid date not after `asOfDate`; otherwise the
scalar (defaulted to 0) is returned. -/
def calculateUsedHours (usedHoursTotal : Option ℚ) (usageRecords : Option (List UsageRecord))
    (asOfDate : String) : ℚ :=
  match usageRecords with
  | some records =>
    if 0 < records.length then
      (records.filter (fun r => isValidDateString r.date && !isAfter r.date asOfDate)).foldl
        (fun sum r => sum + r.amountHours) 0
    else usedHoursTotal.getD 0
  | none => usedHoursTotal.getD 0

/-- Model of `calculate` (index.ts). Validation failure throws the joined
error messages (`Except.error`); the inner `unreachable` branch models the
NaN-poisoned result of an invalid date, which a validated input can never
produce (both date strings satisfy `isValidDateString`, hence parse). -/
def calculate (input : CalculationInput) : Except String CalculationResult :=
  let validation := validateInput input
  if ¬validation.isValid then .error (String.intercalate "\n" validation.errors)
  else
    match calculateServicePeriod input.hireDate input.asOfDate,
        getAccruedDays input.hireDate input.asOfDate input.policyConfig with
    | some servicePeriod, some accruedDaysTotal =>
      let workHoursPerDay := input.workHoursPerDay
      let accruedHoursTotal : ℚ := (accruedDaysTotal : ℚ) * workHoursPerDay
      let usedHoursTotal := calculateUsedHours input.usedHoursTotal input.usageRecords input.asOfDate
      let remainingHours := accruedHoursTotal - usedHoursTotal
      let usedDaysTotal := hoursToDays usedHoursTotal workHoursPerDay
      let remainingDays := hoursToDays remainingHours workHoursPerDay
      .ok ⟨servicePeriod, accruedHoursTotal, usedHoursTotal, remainingHours,
        (accruedDaysTotal : ℚ), usedDaysTotal, remainingDays,
        formatHoursAsDaysHours accruedHoursTotal workHoursPerDay,
        formatHoursAsDaysHours usedHoursTotal workHoursPerDay,
        formatHoursAsDaysHours remainingHours workHoursPerDay⟩
    | _, _ => .error "unreachable: a validated input has parseable dates"

/-- Model of `calculateYearRemain` (index.ts). The yearly grant follows the
source's branches; the inner `0`-defaulted month is the NaN a non-parsing hire
date would give, unreachable after validation. -/
def calculateYearRemain (input : YearRemainInput) : Except String YearRemainResult :=
  let validation := validateYearRemainInput input
  if ¬validation.isValid then .error (String.intercalate "\n" validation.errors)
  else
    let usedHoursTotal := calculateYearUsedHours input.annualLeaveRecords
    let asOfDate := intToString input.year ++ "-12-31"
    match calculateServicePeriod input.hireDate asOfDate with
    | some servicePeriod =>
      let tenureYears := servicePeriod.years
      let yearlyGrantDays : ℤ :=
        if tenureYears < 1 then
          if hireYearOf input.hireDate = some input.year then
            match hireMonthOf input.hireDate with
            | some hireMonth => min (12 - hireMonth + 1) 11
            | none => 0
          else min servicePeriod.totalMonths 11
        else getYearlyDays tenureYears
      let workHoursPerDay := input.workHoursPerDay
      let yearlyGrantHours : ℚ := (yearlyGrantDays : ℚ) * workHoursPerDay
      let carryHours := input.carryDays * workHoursPerDay
      let availableHours := yearlyGrantHours + carryHours
      let availableDays := hoursToDays availableHours workHoursPerDay
      let usedHours := usedHoursTotal
      let usedDays := hoursToDays usedHours workHoursPerDay
      let remainingHours := availableHours - usedHours
      let remainingDays := hoursToDays remainingHours workHoursPerDay
      .ok ⟨input.year, tenureYears, yearlyGrantDays, yearlyGrantHours,
        input.carryDays, carryHours, availableDays, availableHours,
        usedDays, usedHours, remainingDays, remainingHours,
        formatHoursAsDaysHours yearlyGrantHours workHoursPerDay,
        formatHoursAsDaysHours carryHours workHoursPerDay,
        formatHoursAsDaysHours availableHours workHoursPerDay,
        formatHoursAsDaysHours usedHours workHoursPerDay,
        formatHoursAsDaysHours remainingHours workHoursPerDay⟩
    | none => .error "unreachable: a validated input has a parseable hire date"

/-! ### workingDays.ts -/

/-- Model of `parseLocalDate` (workingDays.ts), i.e.
`new Date(dateStr + "T00:00:00")`: the engine's ISO parser accepts the strict
`YYYY-MM-DD` shape with in-range month and day and yields an Invalid Date
(`none`) otherwise. -/
def parseLocalDate (s : String) : Option JDate :=
  if isDateShape s.data then
    match chSplit '-' s.data with
    | [ys, ms, ds] =>
      let y : ℤ := foldDigits ys
      let m : ℤ := foldDigits ms
      let d : ℤ := foldDigits ds
      if 1 ≤ m ∧ m ≤ 12 ∧ 1 ≤ d ∧ d ≤ daysInMonth y m then some ⟨y, m, d⟩ else none
    | _ => none
  else none

/-- `getDay()`: day of week, 0 = Sunday .. 6 = Saturday (1970-01-01 was a
Thursday, day 4). -/
def jsDayOfWeek (dt : JDate) : ℤ :=
  (daysFromCivil dt.y dt.m dt.d + 4) % 7

/-- Model of `isWeekend` (workingDays.ts). -/
def isWeekend (dt : JDate) : Bool :=
  jsDayOfWeek dt = 0 ∨ jsDayOfWeek dt = 6

/-- `isWeekend` lifted to a possibly-invalid date: `getDay()` of an Invalid
Date is `NaN` and `NaN === 0 || NaN === 6` is false. -/
def isWeekendStr (dateStr : String) : Bool :=
  match parseLocalDate dateStr with
  | some dt => isWeekend dt
  | none => false

/-- Model of `isHoliday` (workingDays.ts): membership in the holiday set
(modelled by its membership function). -/
def isHoliday (dateStr : String) (holidays : String → Bool) : Bool :=
  holidays dateStr

/-- Model of `formatDateToYYYYMMDD` (workingDays.ts); same rendering as
`formatDate` but from the local accessors. -/
def formatDateToYYYYMMDD (dt : JDate) : String :=
  String.mk ((intToString dt.y).data ++ '-' :: padTwo dt.m ++ '-' :: padTwo dt.d)

/-- `d.setDate(start.getDate() + i)` on a copy of `start`: put `start.d + i`
into the day field and let the engine normalise. -/
def setDatePlus (start : JDate) (i : ℤ) : JDate :=
  civilFromDays (daysFromCivil start.y start.m (start.d + i))

/-- Model of `getDateRange` (workingDays.ts). A non-positive `calendarDays`
runs the loop zero times; an unparseable start yields the `"NaN-NaN-NaN"`
renderings JavaScript would produce. -/
def getDateRange (startDateStr : String) (calendarDays : ℤ) : List String :=
  match parseLocalDate startDateStr with
  | some start =>
    (List.range calendarDays.toNat).map
      (fun (i : ℕ) => formatDateToYYYYMMDD (setDatePlus start (i : ℤ)))
  | none => (List.range calendarDays.toNat).map (fun _ => "NaN-NaN-NaN")

/-- Model of `calculateWorkingDays` (workingDays.ts): count the range dates
that are neither weekend nor holiday. -/
def calculateWorkingDays (startDateStr : String) (calendarDays : ℤ)
    (holidays : String → Bool) : ℕ :=
  (getDateRange startDateStr calendarDays).countP
    (fun dateStr => !isWeekendStr dateStr && !isHoliday dateStr holidays)

/-- Result record of `calculateWorkingDaysDetailed`. -/
structure WorkingDaysResult where
  calendarDays : ℤ
  workingDays : ℕ
  weekendDays : ℕ
  holidayDays : ℕ
  dateRange : List String

/-- Model of `calculateWorkingDaysDetailed` (workingDays.ts): the loop's
`if weekend / else if holiday / else` classification counts each date in
exactly one bucket. -/
def calculateWorkingDaysDetailed (startDateStr : String) (calendarDays : ℤ)
    (holidays : String → Bool) : WorkingDaysResult :=
  let dateRange := getDateRange startDateStr calendarDays
  { calendarDays := calendarDays
    workingDays := dateRange.countP
      (fun dateStr => !isWeekendStr dateStr && !isHoliday dateStr holidays)
    weekendDays := dateRange.countP (fun dateStr => isWeekendStr dateStr)
    holidayDays := dateRange.countP
      (fun dateStr => !isWeekendStr dateStr && isHoliday dateStr holidays)
    dateRange := dateRange }

/-- Model of `getEndDate` (workingDays.ts): `start + (calendarDays - 1)` days. -/
def getEndDate (startDateStr : String) (calendarDays : ℤ) : String :=
  match parseLocalDate startDateStr with
  | some start => formatDateToYYYYMMDD (setDatePlus start (calendarDays - 1))
  | none => "NaN-NaN-NaN"

/-! ### constants.ts -/

/-- Static event-leave policy entry. -/
structure EventLeavePolicy where
  type : String
  category : String
  title : String
  calendarDays : ℤ
  note : Option String
deriving DecidableEq, Repr

/-- Model of `EVENT_LEAVE_POLICIES` (constants.ts). -/
def EVENT_LEAVE_POLICIES : List EventLeavePolicy :=
  [⟨"MARRIAGE_SELF", "MARRIAGE", "결혼(본인)", 7, some "휴일 포함"⟩,
   ⟨"MARRIAGE_CHILD", "MARRIAGE", "결혼(자녀)", 1, some "휴일 포함"⟩,
   ⟨"MARRIAGE_SIBLING", "MARRIAGE", "결혼(형제/자매)", 1, some "휴일 포함"⟩,
   ⟨"DEATH_SPOUSE", "DEATH", "사망(배우자)", 5, some "휴일 포함"⟩,
   ⟨"DEATH_PARENT", "DEATH", "사망(부모)", 5, some "휴일 포함"⟩,
   ⟨"DEATH_CHILD", "DEATH", "사망(자녀)", 3, some "휴일 포함"⟩,
   ⟨"DEATH_SIBLING", "DEATH", "사망(형제/자매)", 3, some "휴일 포함"⟩,
   ⟨"DEATH_GRANDPARENT", "DEATH", "사망(조부모/외조부모)", 3, some "휴일 포함"⟩]

/-- Model of `getEventLeavePolicy` (constants.ts): first entry with the given
type. -/
def getEventLeavePolicy (type : String) : Option EventLeavePolicy :=
  EVENT_LEAVE_POLICIES.find? (fun p => p.type == type)

/-! ### General helper lemmas -/

theorem foldl_add_eq_sum (l : List ℚ) (a : ℚ) :
    l.foldl (fun s x => s + x) a = a + l.sum := by
  induction l generalizing a with
  | nil => simp
  | cons x xs ih => simp [ih, add_assoc]

theorem foldl_amount_eq_sum (l : List UsageRecord) (a : ℚ) :
    l.foldl (fun sum r => sum + r.amountHours) a = a + (l.map (fun r => r.amountHours)).sum := by
  induction l generalizing a with
  | nil => simp
  | cons x xs ih => simp [ih, add_assoc]

theorem countP_partition (l : List String) (w hol : String → Bool) :
    l.countP (fun s => !w s && !hol s) + l.countP (fun s => w s) +
      l.countP (fun s => !w s && hol s) = l.length := by
  induction l with
  | nil => simp
  | cons x xs ih =>
    simp only [List.countP_cons, List.length_cons]
    cases hw : w x <;> cases hh : hol x <;> simp <;> omega

/-- A valid date string parses, and formatting the parse reproduces it. -/
theorem parse_of_valid (s : String) (hv : isValidDateString s = true) :
    ∃ dt, parseDate s = some dt ∧ formatDate dt = s := by
  unfold isValidDateString at hv
  rw [Bool.and_eq_true] at hv
  obtain ⟨-, hv2⟩ := hv
  cases hp : parseDate s with
  | none => rw [hp] at hv2; exact absurd hv2 (by simp)
  | some dt =>
    rw [hp] at hv2
    exact ⟨dt, rfl, by simpa using hv2⟩

/-- A valid date string matches the date regex. -/
theorem shape_of_valid (s : String) (hv : isValidDateString s = true) :
    isDateShape s.data = true := by
  unfold isValidDateString at hv
  rw [Bool.and_eq_true] at hv
  exact hv.1

/-- Every date `parseDate` can produce has normalised fields. -/
theorem parseDate_bounds (s : String) (dt : JDate) (hp : parseDate s = some dt) :
    1 ≤ dt.m ∧ dt.m ≤ 12 ∧ 1 ≤ dt.d := by
  unfold parseDate at hp
  split at hp
  · simp only [bind, Option.bind_eq_some] at hp
    obtain ⟨y, -, m, -, d, -, hdt⟩ := hp
    exact dateUTC_bounds y m d dt hdt
  · exact absurd hp (by simp)

/-! ### Facts about the rational helpers -/

theorem jsTrunc_intCast (n : ℤ) : jsTrunc ((n : ℤ) : ℚ) = n := by
  unfold jsTrunc
  rw [Rat.num_intCast, Rat.den_intCast]
  exact Int.tdiv_one n

theorem jsFloorQ_eq_floor (q : ℚ) : jsFloorQ q = ⌊q⌋ := by
  rw [Rat.floor_def]
  rfl

theorem floor_int_div_int (a b : ℤ) (hb : 0 < b) : ⌊(a : ℚ) / (b : ℚ)⌋ = a / b := by
  have hbn : ((b.toNat : ℕ) : ℚ) = (b : ℚ) := by
    rw [← Int.cast_natCast, Int.toNat_of_nonneg hb.le]
  rw [← hbn, Rat.floor_intCast_div_natCast, Int.toNat_of_nonneg hb.le]

theorem jsTrunc_nonneg_div (a b : ℤ) (ha : 0 ≤ a) (hb : 0 < b) :
    jsTrunc ((a : ℚ) / (b : ℚ)) = a / b := by
  unfold jsTrunc
  have hnum : 0 ≤ ((a : ℚ) / (b : ℚ)).num := by
    rw [Rat.num_nonneg]
    positivity
  rw [Int.tdiv_eq_ediv hnum (Int.ofNat_nonneg _), ← Rat.floor_def,
    floor_int_div_int a b hb]

theorem jsNumToString_intCast (n : ℤ) : jsNumToString ((n : ℤ) : ℚ) = intToString n := by
  unfold jsNumToString
  rw [Rat.den_intCast, Rat.num_intCast]
  simp

/-- C9: for every integer hours value and positive `workHoursPerDay`,
`formatHoursAsDaysHours` truncates toward zero (the identity on integers),
splits the absolute value into `d = ⌊|hours| / workHoursPerDay⌋` days and
`r = |hours| mod workHoursPerDay` remainder hours, and renders "0일 0시간"
when both are zero, only the hour part when `d = 0`, only the day part when
`r = 0`, and both parts otherwise, with the sign prefix `-` exactly when
`hours < 0`. -/
theorem claim_C9_format_hours (hours w : ℤ) (hw : 0 < w) :
    formatHoursAsDaysHours ((hours : ℤ) : ℚ) ((w : ℤ) : ℚ) =
      (let a := jsAbsZ hours
       let d := a / w
       let r := a % w
       let sign := if hours < 0 then "-" else ""
       if d = 0 ∧ r = 0 then "0일 0시간"
       else if d = 0 then sign ++ intToString r ++ "시간"
       else if r = 0 then sign ++ intToString d ++ "일"
       else sign ++ intToString d ++ "일 " ++ intToString r ++ "시간") := by
  have habs : 0 ≤ jsAbsZ hours := by unfold jsAbsZ; split <;> omega
  have hfl : jsFloorQ ((jsAbsZ hours : ℚ) / (w : ℚ)) = jsAbsZ hours / w := by
    rw [jsFloorQ_eq_floor, floor_int_div_int _ _ hw]
  have htr : jsTrunc ((jsAbsZ hours : ℚ) / (w : ℚ)) = jsAbsZ hours / w :=
    jsTrunc_nonneg_div _ _ habs hw
  have hrem : (jsAbsZ hours : ℚ) - (w : ℚ) * ((jsAbsZ hours / w : ℤ) : ℚ) =
      ((jsAbsZ hours % w : ℤ) : ℚ) := by
    rw [Int.emod_def]
    push_cast
    ring
  simp only [formatHoursAsDaysHours, jsTrunc_intCast, hfl, htr, hrem,
    jsNumToString_intCast, Int.cast_eq_zero, Int.cast_lt_zero]

/-- Witness for C9 at `hours = 9`, `workHoursPerDay = 8`. -/
theorem claim_C9_format_hours_witness :
    formatHoursAsDaysHours ((9 : ℤ) : ℚ) ((8 : ℤ) : ℚ) =
      (let a := jsAbsZ 9
       let d := a / 8
       let r := a % 8
       let sign := if (9 : ℤ) < 0 then "-" else ""
       if d = 0 ∧ r = 0 then "0일 0시간"
       else if d = 0 then sign ++ intToString r ++ "시간"
       else if r = 0 then sign ++ intToString d ++ "일"
       else sign ++ intToString d ++ "일 " ++ intToString r ++ "시간") :=
  claim_C9_format_hours 9 8 (by norm_num)

/-- C10: the static event-leave policy table has exactly the eight entries
with their fixed calendar-day entitlements, `getEventLeavePolicy` returns the
matching entry for exactly those eight type strings, and `none` (undefined)
for every other string. -/
theorem claim_C10_event_policies :
    EVENT_LEAVE_POLICIES.length = 8 ∧
    getEventLeavePolicy "MARRIAGE_SELF" =
      some ⟨"MARRIAGE_SELF", "MARRIAGE", "결혼(본인)", 7, some "휴일 포함"⟩ ∧
    getEventLeavePolicy "MARRIAGE_CHILD" =
      some ⟨"MARRIAGE_CHILD", "MARRIAGE", "결혼(자녀)", 1, some "휴일 포함"⟩ ∧
    getEventLeavePolicy "MARRIAGE_SIBLING" =
      some ⟨"MARRIAGE_SIBLING", "MARRIAGE", "결혼(형제/자매)", 1, some "휴일 포함"⟩ ∧
    getEventLeavePolicy "DEATH_SPOUSE" =
      some ⟨"DEATH_SPOUSE", "DEATH", "사망(배우자)", 5, some "휴일 포함"⟩ ∧
    getEventLeavePolicy "DEATH_PARENT" =
      some ⟨"DEATH_PARENT", "DEATH", "사망(부모)", 5, some "휴일 포함"⟩ ∧
    getEventLeavePolicy "DEATH_CHILD" =
      some ⟨"DEATH_CHILD", "DEATH", "사망(자녀)", 3, some "휴일 포함"⟩ ∧
    getEventLeavePolicy "DEATH_SIBLING" =
      some ⟨"DEATH_SIBLING", "DEATH", "사망(형제/자매)", 3, some "휴일 포함"⟩ ∧
    getEventLeavePolicy "DEATH_GRANDPARENT" =
      some ⟨"DEATH_GRANDPARENT", "DEATH", "사망(조부모/외조부모)", 3, some "휴일 포함"⟩ ∧
    ∀ s : String, s ≠ "MARRIAGE_SELF" → s ≠ "MARRIAGE_CHILD" → s ≠ "MARRIAGE_SIBLING" →
      s ≠ "DEATH_SPOUSE" → s ≠ "DEATH_PARENT" → s ≠ "DEATH_CHILD" → s ≠ "DEATH_SIBLING" →
      s ≠ "DEATH_GRANDPARENT" → getEventLeavePolicy s = none := by
  refine ⟨by decide, by decide, by decide, by decide, by decide, by decide, by decide,
    by decide, by decide, ?_⟩
  intro s h1 h2 h3 h4 h5 h6 h7 h8
  unfold getEventLeavePolicy
  rw [List.find?_eq_none]
  intro p hp
  simp only [EVENT_LEAVE_POLICIES, List.mem_cons, List.not_mem_nil, or_false] at hp
  rcases hp with rfl | rfl | rfl | rfl | rfl | rfl | rfl | rfl <;>
    simp only [beq_iff_eq] <;> intro hh
  · exact h1 hh.symm
  · exact h2 hh.symm
  · exact h3 hh.symm
  · exact h4 hh.symm
  · exact h5 hh.symm
  · exact h6 hh.symm
  · exact h7 hh.symm
  · exact h8 hh.symm

/-- Witness for C10 at the non-policy string "FOO". -/
theorem claim_C10_event_policies_witness : getEventLeavePolicy "FOO" = none :=
  claim_C10_event_policies.2.2.2.2.2.2.2.2.2 "FOO" (by decide) (by decide) (by decide)
    (by decide) (by decide) (by decide) (by decide) (by decide)

/-- C4 (as stated) is false: with a *present but empty* usage-record list and
`usedHoursTotal = 5`, the sum over the (empty) qualifying records is `0`, yet
`calculateUsedHours` returns the scalar `5` — the source guards with
`usageRecords && usageRecords.length > 0`, so an empty list falls back to the
scalar (the repository's own test expects exactly this). -/
theorem claim_C4_counterexample :
    calculateUsedHours (some 5) (some ([] : List UsageRecord)) "2024-01-01" = 5 ∧
      (5 : ℚ) ≠ 0 := by
  constructor
  · with_unfolding_all decide
  · norm_num

/-- C4 (amended): whenever a *non-empty* usage-record list is present, the
result is the sum of `amountHours` over the records whose date is a valid date
string and not after `asOfDate` (future-dated records are silently excluded)
and the scalar is ignored; when the list is absent or empty the result is the
scalar `usedHoursTotal` (0 when undefined). -/
theorem claim_C4_used_hours (used : Option ℚ) (records : List UsageRecord) (asOf : String) :
    (records ≠ [] → calculateUsedHours used (some records) asOf =
      ((records.filter (fun r => isValidDateString r.date && !isAfter r.date asOf)).map
        (fun r => r.amountHours)).sum) ∧
    calculateUsedHours used (some []) asOf = used.getD 0 ∧
    calculateUsedHours used none asOf = used.getD 0 := by
  refine ⟨fun hne => ?_, by simp [calculateUsedHours], by simp [calculateUsedHours]⟩
  simp only [calculateUsedHours]
  rw [if_pos (by cases records with | nil => exact absurd rfl hne | cons a l => simp)]
  rw [foldl_amount_eq_sum]
  simp

/-- Witness for C4 (amended) at a two-record list with one future-dated
record. -/
theorem claim_C4_used_hours_witness :
    ([⟨"2024-01-05", (16 : ℚ)⟩, ⟨"2024-03-10", 24⟩] : List UsageRecord) ≠ [] ∧
    calculateUsedHours (some 100) (some [⟨"2024-01-05", 16⟩, ⟨"2024-03-10", 24⟩]) "2024-02-01" =
      ((([⟨"2024-01-05", 16⟩, ⟨"2024-03-10", 24⟩] : List UsageRecord).filter
        (fun r => isValidDateString r.date && !isAfter r.date "2024-02-01")).map
        (fun r => r.amountHours)).sum :=
  ⟨by simp,
    (claim_C4_used_hours (some 100) [⟨"2024-01-05", 16⟩, ⟨"2024-03-10", 24⟩] "2024-02-01").1
      (by simp)⟩

/-- C5: for every start date string, count `n ≥ 0` and holiday set,
`calculateWorkingDays` is between `0` and `n`; `calculateWorkingDaysDetailed`
classifies each of the `n` range dates into exactly one bucket (weekend first,
then holiday, then working), so `workingDays + weekendDays + holidayDays =
calendarDays = n`, its `workingDays` agrees with `calculateWorkingDays` (a
date that is both weekend and holiday is excluded exactly once), and
`holidayDays` counts only non-weekend holidays. -/
theorem claim_C5_working_days (start : String) (n : ℤ) (H : String → Bool) (hn : 0 ≤ n) :
    (0 : ℤ) ≤ (calculateWorkingDays start n H : ℤ) ∧
    (calculateWorkingDays start n H : ℤ) ≤ n ∧
    (let r := calculateWorkingDaysDetailed start n H
     r.calendarDays = n ∧
     (r.workingDays : ℤ) + (r.weekendDays : ℤ) + (r.holidayDays : ℤ) = n ∧
     r.dateRange.length = n.toNat ∧
     r.workingDays = calculateWorkingDays start n H ∧
     r.holidayDays =
       (r.dateRange.filter (fun ds => !isWeekendStr ds)).countP (fun ds => isHoliday ds H)) := by
  have hlen : (getDateRange start n).length = n.toNat := by
    unfold getDateRange
    cases parseLocalDate start <;> rw [List.length_map, List.length_range]
  have hcount := countP_partition (getDateRange start n) isWeekendStr (fun ds => isHoliday ds H)
  refine ⟨by positivity, ?_, rfl, ?_, hlen, rfl, ?_⟩
  · have hle : calculateWorkingDays start n H ≤ (getDateRange start n).length :=
      List.countP_le_length _
    rw [hlen] at hle
    omega
  · simp only [calculateWorkingDaysDetailed, calculateWorkingDays] at hcount ⊢
    rw [hlen] at hcount
    omega
  · simp only [calculateWorkingDaysDetailed, List.countP_filter]
    congr 1
    funext ds
    rw [Bool.and_comm]

/-- Witness for C5 at a Friday start, a full week, and the empty holiday
set. -/
theorem claim_C5_working_days_witness :
    (0 : ℤ) ≤ (calculateWorkingDays "2024-01-12" 7 (fun _ => false) : ℤ) ∧
    (calculateWorkingDays "2024-01-12" 7 (fun _ => false) : ℤ) ≤ 7 ∧
    (let r := calculateWorkingDaysDetailed "2024-01-12" 7 (fun _ => false)
     r.calendarDays = 7 ∧
     (r.workingDays : ℤ) + (r.weekendDays : ℤ) + (r.holidayDays : ℤ) = 7 ∧
     r.dateRange.length = (7 : ℤ).toNat ∧
     r.workingDays = calculateWorkingDays "2024-01-12" 7 (fun _ => false) ∧
     r.holidayDays = (r.dateRange.filter (fun ds => !isWeekendStr ds)).countP
       (fun ds => isHoliday ds (fun _ => false))) :=
  claim_C5_working_days "2024-01-12" 7 (fun _ => false) (by norm_num)

/-! ### Validator extraction lemmas -/

theorem validateInput_facts (input : CalculationInput)
    (hv : (validateInput input).isValid = true) :
    isValidDateString input.hireDate = true ∧ isValidDateString input.asOfDate = true ∧
    0 < input.workHoursPerDay ∧ input.workHoursPerDay ≤ 24 := by
  simp only [validateInput] at hv
  rw [List.isEmpty_iff] at hv
  simp only [List.append_eq_nil] at hv
  obtain ⟨⟨⟨⟨⟨h1, h2⟩, -⟩, h4⟩, -⟩, -⟩ := hv
  have hw : ¬(input.workHoursPerDay ≤ 0 ∨ 24 < input.workHoursPerDay) := by
    intro hc
    rw [if_pos hc] at h4
    exact absurd h4 (by simp)
  push_neg at hw
  refine ⟨?_, ?_, by linarith [hw.1], hw.2⟩
  · by_contra hc
    rw [Bool.not_eq_true] at hc
    simp [hc] at h1
  · by_contra hc
    rw [Bool.not_eq_true] at hc
    simp [hc] at h2

theorem validateYearRemainInput_facts (input : YearRemainInput)
    (hv : (validateYearRemainInput input).isValid = true) :
    1900 ≤ input.year ∧ input.year ≤ 2100 ∧ isValidDateString input.hireDate = true := by
  simp only [validateYearRemainInput] at hv
  rw [List.isEmpty_iff] at hv
  simp only [List.append_eq_nil] at hv
  obtain ⟨⟨⟨⟨⟨h1, h2⟩, -⟩, -⟩, -⟩, -⟩ := hv
  have hy : ¬(input.year < 1900 ∨ 2100 < input.year) := by
    intro hc
    rw [if_pos hc] at h1
    exact absurd h1 (by simp)
  push_neg at hy
  refine ⟨hy.1, hy.2, ?_⟩
  by_contra hc
  rw [Bool.not_eq_true] at hc
  simp [hc] at h2

/-- C7: whenever a validator reports at least one error, the compute entry
point throws the collected messages joined with newlines and returns no
partial result; the validators collect every applicable message rather than
short-circuiting — exhibited by an input violating three independent rules at
once, whose error list contains all three messages. -/
theorem claim_C7_validation_throws :
    (∀ input : CalculationInput, (validateInput input).isValid = false →
      calculate input = .error (String.intercalate "\n" (validateInput input).errors)) ∧
    (∀ input : YearRemainInput, (validateYearRemainInput input).isValid = false →
      calculateYearRemain input =
        .error (String.intercalate "\n" (validateYearRemainInput input).errors)) ∧
    (validateInput ⟨"bad", "2024-01-01", 25, some (-3), none, ⟨"DEFAULT"⟩⟩).errors =
      ["입사일이 유효하지 않습니다. (YYYY-MM-DD 형식)",
       "1일 근로시간은 0보다 크고 24 이하여야 합니다.",
       "사용 시간은 0 이상이어야 합니다."] := by
  refine ⟨?_, ?_, by with_unfolding_all decide⟩
  · intro input h
    simp only [calculate, h]
    simp
  · intro input h
    simp only [calculateYearRemain, h]
    simp

/-- Witness for C7 at a three-error input. -/
theorem claim_C7_validation_throws_witness :
    calculate ⟨"bad", "2024-01-01", 25, some (-3), none, ⟨"DEFAULT"⟩⟩ =
      .error (String.intercalate "\n"
        (validateInput ⟨"bad", "2024-01-01", 25, some (-3), none, ⟨"DEFAULT"⟩⟩).errors) :=
  claim_C7_validation_throws.1 _ (by with_unfolding_all decide)

/-! ### Parse consequences used by C1, C2, C3, C6 -/

theorem calculateServicePeriod_eq (s1 s2 : String) (h a : JDate)
    (h1 : parseDate s1 = some h) (h2 : parseDate s2 = some a) :
    calculateServicePeriod s1 s2 = some (servicePeriodOf h a) := by
  unfold calculateServicePeriod
  rw [h1, h2]

theorem calculateDefaultAccruedDays_some (s1 s2 : String) (h a : JDate)
    (h1 : parseDate s1 = some h) (h2 : parseDate s2 = some a) :
    ∃ n, calculateDefaultAccruedDays s1 s2 = some n := by
  simp only [calculateDefaultAccruedDays, h1, h2]
  split
  · exact ⟨_, rfl⟩
  · split <;> exact ⟨_, rfl⟩

theorem getAccruedDays_eq_default (s1 s2 : String) (cfg : PolicyConfig) :
    getAccruedDays s1 s2 cfg = calculateDefaultAccruedDays s1 s2 := by
  unfold getAccruedDays
  split <;> rfl

/-- C2: for every lifetime-mode input that passes `validateInput`, `calculate`
returns a result with `accruedHoursTotal = getAccruedDays(...) *
workHoursPerDay`, `usedHoursTotal` the value computed by
`calculateUsedHours`, `remainingHours = accruedHoursTotal - usedHoursTotal`
exactly, and the `...Days` fields equal to the corresponding hours divided by
`workHoursPerDay` without rounding. -/
theorem claim_C2_balance_identity (input : CalculationInput)
    (hv : (validateInput input).isValid = true) :
    ∃ (r : CalculationResult) (n : ℤ),
      calculate input = .ok r ∧
      getAccruedDays input.hireDate input.asOfDate input.policyConfig = some n ∧
      r.accruedHoursTotal = (n : ℚ) * input.workHoursPerDay ∧
      r.usedHoursTotal = calculateUsedHours input.usedHoursTotal input.usageRecords input.asOfDate ∧
      r.remainingHours = r.accruedHoursTotal - r.usedHoursTotal ∧
      r.accruedDaysTotal = r.accruedHoursTotal / input.workHoursPerDay ∧
      r.usedDaysTotal = r.usedHoursTotal / input.workHoursPerDay ∧
      r.remainingDays = r.remainingHours / input.workHoursPerDay := by
  obtain ⟨hhire, hasof, hwpos, -⟩ := validateInput_facts input hv
  obtain ⟨h, hph, -⟩ := parse_of_valid _ hhire
  obtain ⟨a, hpa, -⟩ := parse_of_valid _ hasof
  have hsp := calculateServicePeriod_eq input.hireDate input.asOfDate h a hph hpa
  obtain ⟨n, hn⟩ := calculateDefaultAccruedDays_some input.hireDate input.asOfDate h a hph hpa
  have hacc : getAccruedDays input.hireDate input.asOfDate input.policyConfig = some n := by
    rw [getAccruedDays_eq_default, hn]
  have hcalc : calculate input =
      .ok ⟨servicePeriodOf h a,
        (n : ℚ) * input.workHoursPerDay,
        calculateUsedHours input.usedHoursTotal input.usageRecords input.asOfDate,
        (n : ℚ) * input.workHoursPerDay -
          calculateUsedHours input.usedHoursTotal input.usageRecords input.asOfDate,
        (n : ℚ),
        hoursToDays (calculateUsedHours input.usedHoursTotal input.usageRecords input.asOfDate)
          input.workHoursPerDay,
        hoursToDays ((n : ℚ) * input.workHoursPerDay -
            calculateUsedHours input.usedHoursTotal input.usageRecords input.asOfDate)
          input.workHoursPerDay,
        formatHoursAsDaysHours ((n : ℚ) * input.workHoursPerDay) input.workHoursPerDay,
        formatHoursAsDaysHours
          (calculateUsedHours input.usedHoursTotal input.usageRecords input.asOfDate)
          input.workHoursPerDay,
        formatHoursAsDaysHours ((n : ℚ) * input.workHoursPerDay -
            calculateUsedHours input.usedHoursTotal input.usageRecords input.asOfDate)
          input.workHoursPerDay⟩ := by
    simp only [calculate, hv]
    rw [if_neg (by simp), hsp, hacc]
  refine ⟨_, n, hcalc, hacc, rfl, rfl, rfl, ?_, rfl, rfl⟩
  show (n : ℚ) = (n : ℚ) * input.workHoursPerDay / input.workHoursPerDay
  rw [mul_div_cancel_right₀ _ (ne_of_gt hwpos)]

/-- Witness for C2 at a concrete one-year input. -/
theorem claim_C2_balance_identity_witness :
    ∃ (r : CalculationResult) (n : ℤ),
      calculate ⟨"2023-01-01", "2024-01-01", 8, some 40, none, ⟨"DEFAULT"⟩⟩ = .ok r ∧
      getAccruedDays "2023-01-01" "2024-01-01" ⟨"DEFAULT"⟩ = some n ∧
      r.accruedHoursTotal = (n : ℚ) * 8 ∧
      r.usedHoursTotal = calculateUsedHours (some 40) none "2024-01-01" ∧
      r.remainingHours = r.accruedHoursTotal - r.usedHoursTotal ∧
      r.accruedDaysTotal = r.accruedHoursTotal / 8 ∧
      r.usedDaysTotal = r.usedHoursTotal / 8 ∧
      r.remainingDays = r.remainingHours / 8 :=
  claim_C2_balance_identity ⟨"2023-01-01", "2024-01-01", 8, some 40, none, ⟨"DEFAULT"⟩⟩
    (by with_unfolding_all decide)

/-- C6: for every pair of parseable date strings — the as-of date may precede
the hire date — `calculateServicePeriod` returns a record with
`totalMonths = years * 12 + months` and `months ∈ [0, 11]`, and the partial
month is not counted when the as-of day-of-month is smaller than the hire
day-of-month (the month count is decremented before normalisation). -/
theorem claim_C6_service_period (s1 s2 : String) (h a : JDate)
    (h1 : parseDate s1 = some h) (h2 : parseDate s2 = some a) :
    ∃ sp, calculateServicePeriod s1 s2 = some sp ∧
      sp.totalMonths = sp.years * 12 + sp.months ∧
      0 ≤ sp.months ∧ sp.months ≤ 11 ∧
      sp.totalMonths = (a.y - h.y) * 12 + (a.m - h.m) - (if a.d < h.d then 1 else 0) := by
  obtain ⟨hm1, hm2, -⟩ := parseDate_bounds s1 h h1
  obtain ⟨hm1', hm2', -⟩ := parseDate_bounds s2 a h2
  refine ⟨servicePeriodOf h a, calculateServicePeriod_eq s1 s2 h a h1 h2, ?_, ?_, ?_, ?_⟩ <;>
    simp only [servicePeriodOf] <;> split <;> split <;> simp <;> omega

/-- Witness for C6 at a pair exercising the day-of-month borrow. -/
theorem claim_C6_service_period_witness :
    ∃ sp, calculateServicePeriod "2024-03-31" "2024-04-15" = some sp ∧
      sp.totalMonths = sp.years * 12 + sp.months ∧
      0 ≤ sp.months ∧ sp.months ≤ 11 ∧
      sp.totalMonths = ((2024 : ℤ) - 2024) * 12 + ((4 : ℤ) - 3) -
        (if (15 : ℤ) < 31 then 1 else 0) :=
  claim_C6_service_period "2024-03-31" "2024-04-15" ⟨2024, 3, 31⟩ ⟨2024, 4, 15⟩
    (by decide) (by decide)

theorem foldl_yearly_eq_sum (n : ℕ) :
    (List.range n).foldl (fun acc (i : ℕ) => acc + getYearlyDays ((i : ℤ) + 1)) 11 =
      11 + ∑ i in Finset.range n, min (15 + ((i : ℤ) + 1 - 1) / 2) 25 := by
  induction n with
  | zero => simp
  | succ k ih =>
    rw [List.range_succ, List.foldl_append, ih, Finset.sum_range_succ]
    have hg : getYearlyDays ((k : ℤ) + 1) = min (15 + ((k : ℤ) + 1 - 1) / 2) 25 := by
      unfold getYearlyDays
      rw [if_neg (by omega)]
    simp [hg]
    ring

/-- C1: for every pair of parseable date strings, `calculateDefaultAccruedDays`
(and `getAccruedDays` with a DEFAULT config, which always computes the default
policy) returns 0 when the as-of date is strictly before the hire date,
`min(totalMonths, 11)` when the tenure years are below 1, and
`11 + Σ_{y=1..years} getYearlyDays(y)` otherwise, where
`getYearlyDays(y) = min(15 + (y-1)/2, 25)` for `y ≥ 1` and `0` for `y < 1`. -/
theorem claim_C1_default_accrual (s1 s2 : String) (h a : JDate)
    (h1 : parseDate s1 = some h) (h2 : parseDate s2 = some a) :
    calculateDefaultAccruedDays s1 s2 = some
      (if daysFromCivil a.y a.m a.d < daysFromCivil h.y h.m h.d then 0
       else if (servicePeriodOf h a).years < 1 then min (servicePeriodOf h a).totalMonths 11
       else 11 + ∑ i in Finset.range (servicePeriodOf h a).years.toNat,
         min (15 + ((i : ℤ) + 1 - 1) / 2) 25) ∧
    getAccruedDays s1 s2 ⟨"DEFAULT"⟩ = calculateDefaultAccruedDays s1 s2 ∧
    (∀ y : ℤ, y < 1 → getYearlyDays y = 0) ∧
    (∀ y : ℤ, 1 ≤ y → getYearlyDays y = min (15 + (y - 1) / 2) 25) := by
  refine ⟨?_, getAccruedDays_eq_default s1 s2 ⟨"DEFAULT"⟩,
    fun y hy => by unfold getYearlyDays; rw [if_pos hy],
    fun y hy => by unfold getYearlyDays; rw [if_neg (by omega)]⟩
  simp only [calculateDefaultAccruedDays, h1, h2]
  have hcond : (getTimeJ a < getTimeJ h) ↔
      (daysFromCivil a.y a.m a.d < daysFromCivil h.y h.m h.d) := by
    unfold getTimeJ
    omega
  by_cases hc : daysFromCivil a.y a.m a.d < daysFromCivil h.y h.m h.d
  · rw [if_pos (hcond.mpr hc), if_pos hc]
  · rw [if_neg (fun hh => hc (hcond.mp hh)), if_neg hc]
    by_cases hy : (servicePeriodOf h a).years < 1
    · rw [if_pos hy, if_pos hy]
    · rw [if_neg hy, if_neg hy, foldl_yearly_eq_sum]

/-- Witness for C1 at a one-year-plus pair (`11 + 15` accrued days). -/
theorem claim_C1_default_accrual_witness :
    calculateDefaultAccruedDays "2023-01-01" "2024-02-01" = some
      (if daysFromCivil 2024 2 1 < daysFromCivil 2023 1 1 then 0
       else if (servicePeriodOf ⟨2023, 1, 1⟩ ⟨2024, 2, 1⟩).years < 1 then
         min (servicePeriodOf ⟨2023, 1, 1⟩ ⟨2024, 2, 1⟩).totalMonths 11
       else 11 + ∑ i in Finset.range (servicePeriodOf ⟨2023, 1, 1⟩ ⟨2024, 2, 1⟩).years.toNat,
         min (15 + ((i : ℤ) + 1 - 1) / 2) 25) ∧
    getAccruedDays "2023-01-01" "2024-02-01" ⟨"DEFAULT"⟩ =
      calculateDefaultAccruedDays "2023-01-01" "2024-02-01" ∧
    (∀ y : ℤ, y < 1 → getYearlyDays y = 0) ∧
    (∀ y : ℤ, 1 ≤ y → getYearlyDays y = min (15 + (y - 1) / 2) 25) :=
  claim_C1_default_accrual "2023-01-01" "2024-02-01" ⟨2023, 1, 1⟩ ⟨2024, 2, 1⟩
    (by decide) (by decide)

/-- Everything that must have held on the success path of
`normalizeDateInput`. -/
theorem normalizeDateInput_some_spec (s t : String) (hsome : normalizeDateInput s = some t) :
    (jsTrim s.data).isEmpty = false ∧
    ∃ ys ms ds, splitSepRuns (jsTrim s.data) = [ys, ms, ds] ∧
      ys.length = 4 ∧ ys.all Char.isDigit = true ∧
      1 ≤ ms.length ∧ ms.length ≤ 2 ∧ ms.all Char.isDigit = true ∧
      1 ≤ foldDigits ms ∧ foldDigits ms ≤ 12 ∧
      1 ≤ ds.length ∧ ds.length ≤ 2 ∧ ds.all Char.isDigit = true ∧
      1 ≤ foldDigits ds ∧ foldDigits ds ≤ 31 ∧
      t = String.mk (natToDigits (foldDigits ys) ++ '-' :: padTwoNat (foldDigits ms) ++
        '-' :: padTwoNat (foldDigits ds)) ∧
      isValidDateString t = true := by
  simp only [normalizeDateInput] at hsome
  split at hsome
  · exact absurd hsome (by simp)
  · rename_i htrim
    split at hsome
    · rename_i ys ms ds heq
      split at hsome
      · exact absurd hsome (by simp)
      · rename_i hy
        split at hsome
        · exact absurd hsome (by simp)
        · rename_i hm
          split at hsome
          · exact absurd hsome (by simp)
          · rename_i hmr
            split at hsome
            · exact absurd hsome (by simp)
            · rename_i hd
              split at hsome
              · exact absurd hsome (by simp)
              · rename_i hdr
                split at hsome
                · rename_i hvalid
                  rw [Option.some.injEq] at hsome
                  subst hsome
                  push_neg at hy hm hd hmr hdr
                  rw [Bool.not_eq_true] at htrim
                  exact ⟨htrim, ys, ms, ds, heq, hy.1, hy.2, hm.1, hm.2.1, hm.2.2,
                    hmr.1, hmr.2, hd.1, hd.2.1, hd.2.2, hdr.1, hdr.2, rfl, hvalid⟩
                · exact absurd hsome (by simp)
    · exact absurd hsome (by simp)

/-- C8: `normalizeDateInput` never throws (it is a total function) and returns
either `none` or a zero-padded `YYYY-MM-DD` string that passes
`isValidDateString`; whenever it succeeds, the trimmed input split into
exactly three pieces on separator runs, the year piece was exactly four
digits, the month piece one or two digits with value in 1..12, the day piece
one or two digits with value in 1..31, and the recombined zero-padded string
passed the parse→format round-trip — so `none` results whenever any of these
fail; in particular `normalizeDateInput "2024-02-30" = none`. -/
theorem claim_C8_normalize_date_input :
    (∀ s : String, normalizeDateInput s = none ∨
      ∃ t, normalizeDateInput s = some t ∧ isValidDateString t = true) ∧
    (∀ s t : String, normalizeDateInput s = some t →
      (jsTrim s.data).isEmpty = false ∧
      ∃ ys ms ds, splitSepRuns (jsTrim s.data) = [ys, ms, ds] ∧
        ys.length = 4 ∧ ys.all Char.isDigit = true ∧
        1 ≤ ms.length ∧ ms.length ≤ 2 ∧ ms.all Char.isDigit = true ∧
        1 ≤ foldDigits ms ∧ foldDigits ms ≤ 12 ∧
        1 ≤ ds.length ∧ ds.length ≤ 2 ∧ ds.all Char.isDigit = true ∧
        1 ≤ foldDigits ds ∧ foldDigits ds ≤ 31 ∧
        t = String.mk (natToDigits (foldDigits ys) ++ '-' :: padTwoNat (foldDigits ms) ++
          '-' :: padTwoNat (foldDigits ds)) ∧
        isValidDateString t = true) ∧
    normalizeDateInput "2024-02-30" = none := by
  refine ⟨?_, normalizeDateInput_some_spec, by decide⟩
  intro s
  cases hns : normalizeDateInput s with
  | none => exact Or.inl rfl
  | some t =>
    obtain ⟨-, _, _, _, -, -, -, -, -, -, -, -, -, -, -, -, -, -, hvalid⟩ :=
      normalizeDateInput_some_spec s t hns
    exact Or.inr ⟨t, rfl, hvalid⟩

/-- Witness for C8's success-path characterisation at a dotted, unpadded
input. -/
theorem claim_C8_normalize_date_input_witness :
    normalizeDateInput "2024.6.2" = some "2024-06-02" ∧
    ((jsTrim ("2024.6.2" : String).data).isEmpty = false ∧
      ∃ ys ms ds, splitSepRuns (jsTrim ("2024.6.2" : String).data) = [ys, ms, ds] ∧
        ys.length = 4 ∧ ys.all Char.isDigit = true ∧
        1 ≤ ms.length ∧ ms.length ≤ 2 ∧ ms.all Char.isDigit = true ∧
        1 ≤ foldDigits ms ∧ foldDigits ms ≤ 12 ∧
        1 ≤ ds.length ∧ ds.length ≤ 2 ∧ ds.all Char.isDigit = true ∧
        1 ≤ foldDigits ds ∧ foldDigits ds ≤ 31 ∧
        ("2024-06-02" : String) = String.mk (natToDigits (foldDigits ys) ++
          '-' :: padTwoNat (foldDigits ms) ++ '-' :: padTwoNat (foldDigits ds)) ∧
        isValidDateString "2024-06-02" = true) :=
  ⟨by decide, claim_C8_normalize_date_input.2.1 "2024.6.2" "2024-06-02" (by decide)⟩

/-! ### String lemmas for the hire-date accessors (C3) -/

theorem takeWhile_of_all_digit (l : List Char) (h : l.all Char.isDigit = true) :
    l.takeWhile Char.isDigit = l := by
  induction l with
  | nil => rfl
  | cons c rest ih =>
    simp only [List.all_cons, Bool.and_eq_true] at h
    rw [List.takeWhile_cons_of_pos h.1, ih h.2]

theorem foldDigits_replicate_zeros (k : ℕ) (l : List Char) :
    foldDigits (List.replicate k '0' ++ l) = foldDigits l := by
  induction k with
  | zero => rfl
  | succ j ih =>
    rw [List.replicate_succ, List.cons_append]
    have h0 : foldDigits ('0' :: (List.replicate j '0' ++ l)) =
        foldDigits (List.replicate j '0' ++ l) := by
      simp only [foldDigits, List.foldl_cons]
      norm_num [show '0'.toNat = 48 by decide]
    rw [h0, ih]

theorem not_dash_of_all_digit (l : List Char) (h : ∀ c ∈ l, c.isDigit = true) :
    '-' ∉ l :=
  fun hm => absurd (h '-' hm) (by decide)

theorem intToString_of_nonneg (i : ℤ) (h : 0 ≤ i) :
    intToString i = String.mk (natToDigits i.toNat) := by
  unfold intToString
  rw [if_neg (by omega)]

theorem padTwo_all_digit (i : ℤ) (h : 0 ≤ i) : ∀ c ∈ padTwo i, c.isDigit = true := by
  intro c hc
  simp only [padTwo, intToString_of_nonneg i h, List.mem_append, List.mem_replicate] at hc
  rcases hc with ⟨-, rfl⟩ | hc
  · decide
  · exact natToDigits_all_digit _ c hc

theorem padTwo_ne_nil (i : ℤ) (h : 0 ≤ i) : padTwo i ≠ [] := by
  simp only [padTwo, intToString_of_nonneg i h]
  simp [natToDigits_ne_nil]

theorem foldDigits_padTwo (i : ℤ) (h : 0 ≤ i) : foldDigits (padTwo i) = i.toNat := by
  simp only [padTwo, intToString_of_nonneg i h]
  rw [foldDigits_replicate_zeros, foldDigits_natToDigits]

theorem jsParseIntHead_all_digit (l : List Char) (hne : l ≠ [])
    (hall : ∀ c ∈ l, c.isDigit = true) :
    jsParseIntHead l = some ((foldDigits l : ℕ) : ℤ) := by
  unfold jsParseIntHead
  rw [takeWhile_of_all_digit l (List.all_eq_true.mpr hall)]
  rw [if_neg (by simp [hne])]

theorem jsParseIntHead_padTwo (i : ℤ) (h : 0 ≤ i) :
    jsParseIntHead (padTwo i) = some i := by
  rw [jsParseIntHead_all_digit (padTwo i) (padTwo_ne_nil i h) (padTwo_all_digit i h),
    foldDigits_padTwo i h, Int.toNat_of_nonneg h]

theorem jsParseIntHead_natToDigits (n : ℕ) :
    jsParseIntHead (natToDigits n) = some (n : ℤ) := by
  rw [jsParseIntHead_all_digit (natToDigits n) (natToDigits_ne_nil n)
    (natToDigits_all_digit n), foldDigits_natToDigits]

theorem isDateShape_head (l : List Char) (h : isDateShape l = true) :
    ∃ c rest, l = c :: rest ∧ c.isDigit = true := by
  unfold isDateShape at h
  split at h
  · rename_i c1 c2 c3 c4 s1 c5 c6 s2 c7 c8
    simp only [Bool.and_eq_true] at h
    exact ⟨c1, _, rfl, h.1.1.1.1.1.1.1.1.1⟩
  · exact absurd h (by simp)

theorem formatDate_data (dt : JDate) (hy : 0 ≤ dt.y) :
    (formatDate dt).data =
      natToDigits dt.y.toNat ++ '-' :: (padTwo dt.m ++ '-' :: padTwo dt.d) := by
  unfold formatDate
  rw [intToString_of_nonneg dt.y hy]
  simp [List.append_assoc]

theorem parseDate_y_nonneg (s : String) (dt : JDate)
    (hs : isDateShape s.data = true) (hfmt : formatDate dt = s) : 0 ≤ dt.y := by
  by_contra hneg
  push_neg at hneg
  obtain ⟨c, rest, hcons, hdig⟩ := isDateShape_head s.data hs
  rw [← hfmt] at hcons
  simp only [formatDate, intToString, if_pos hneg, List.cons_append] at hcons
  injection hcons with h1 h2
  rw [← h1] at hdig
  exact absurd hdig (by decide)

theorem chSplit_formatDate (dt : JDate) (hy : 0 ≤ dt.y) (hm : 0 ≤ dt.m) (hd : 0 ≤ dt.d) :
    chSplit '-' (formatDate dt).data =
      [natToDigits dt.y.toNat, padTwo dt.m, padTwo dt.d] := by
  rw [formatDate_data dt hy,
    chSplit_append '-' _ _ (not_dash_of_all_digit _ (natToDigits_all_digit _)),
    chSplit_append '-' _ _ (not_dash_of_all_digit _ (padTwo_all_digit dt.m hm)),
    chSplit_of_not_mem '-' _ (not_dash_of_all_digit _ (padTwo_all_digit dt.d hd))]

/-- On a valid date string, the `parseInt(split('-')[i])` accessors used by
`calculateYearRemain` recover the parsed year and month. -/
theorem hire_accessors_of_valid (s : String) (dt : JDate)
    (hv : isValidDateString s = true) (hp : parseDate s = some dt)
    (hfmt : formatDate dt = s) :
    hireYearOf s = some dt.y ∧ hireMonthOf s = some dt.m := by
  obtain ⟨hm1, hm2, hd1⟩ := parseDate_bounds s dt hp
  have hy : 0 ≤ dt.y := parseDate_y_nonneg s dt (shape_of_valid s hv) hfmt
  have hsplit : chSplit '-' s.data =
      [natToDigits dt.y.toNat, padTwo dt.m, padTwo dt.d] := by
    rw [← hfmt]
    exact chSplit_formatDate dt hy (by omega) (by omega)
  constructor
  · unfold hireYearOf
    rw [hsplit]
    show jsParseIntHead (natToDigits dt.y.toNat) = some dt.y
    rw [jsParseIntHead_natToDigits, Int.toNat_of_nonneg hy]
  · unfold hireMonthOf
    rw [hsplit]
    show jsParseIntHead (padTwo dt.m) = some dt.m
    exact jsParseIntHead_padTwo dt.m (by omega)

set_option maxRecDepth 2000 in
theorem civil_dec31_range : ∀ n : ℕ, n < 201 →
    civilFromDays (daysFromCivil (1900 + (n : ℤ)) 12 1 + 30) = ⟨1900 + (n : ℤ), 12, 31⟩ := by
  decide

theorem civil_dec31 (y : ℤ) (h1 : 1900 ≤ y) (h2 : y ≤ 2100) :
    civilFromDays (daysFromCivil y 12 1 + 30) = ⟨y, 12, 31⟩ := by
  have h := civil_dec31_range (y - 1900).toNat (by omega)
  have hy : 1900 + ((y - 1900).toNat : ℤ) = y := by omega
  rwa [hy] at h

theorem dateUTC_dec31 (y : ℤ) (h1 : 1900 ≤ y) (h2 : y ≤ 2100) :
    dateUTC y 12 31 = some ⟨y, 12, 31⟩ := by
  simp only [dateUTC]
  have hq : ¬(0 ≤ y ∧ y ≤ 99) := by omega
  rw [if_neg hq]
  have ht1 : (y * 12 + (12 - 1)) / 12 = y := by omega
  have ht2 : (y * 12 + (12 - 1)) % 12 + 1 = 12 := by omega
  rw [ht1, ht2]
  have hrange : ¬(daysFromCivil y 12 1 + (31 - 1) < -100000000 ∨
      100000000 < daysFromCivil y 12 1 + (31 - 1)) := by
    simp only [daysFromCivil]
    norm_num
    omega
  rw [if_neg hrange]
  have h30 : (31 : ℤ) - 1 = 30 := by norm_num
  rw [h30, civil_dec31 y h1 h2]

theorem parseDate_yearEnd (year : ℤ) (h1 : 1900 ≤ year) (h2 : year ≤ 2100) :
    parseDate (intToString year ++ "-12-31") = some ⟨year, 12, 31⟩ := by
  have hy0 : (0 : ℤ) ≤ year := by omega
  have hdata : (intToString year ++ "-12-31").data =
      natToDigits year.toNat ++ '-' :: (['1', '2'] ++ '-' :: ['3', '1']) := by
    rw [String.data_append, intToString_of_nonneg year hy0]
    rfl
  unfold parseDate
  rw [hdata,
    chSplit_append '-' _ _ (not_dash_of_all_digit _ (natToDigits_all_digit _)),
    chSplit_append '-' _ _ (by decide),
    chSplit_of_not_mem '-' _ (by decide)]
  show (do
    let y ← jsNumberOfPart (natToDigits year.toNat)
    let m ← jsNumberOfPart ['1', '2']
    let d ← jsNumberOfPart ['3', '1']
    dateUTC y m d) = some ⟨year, 12, 31⟩
  have hyn : jsNumberOfPart (natToDigits year.toNat) = some year := by
    unfold jsNumberOfPart
    rw [if_neg (by simp [natToDigits_ne_nil]),
      if_pos (List.all_eq_true.mpr (natToDigits_all_digit _)),
      foldDigits_natToDigits, Int.toNat_of_nonneg hy0]
  rw [hyn]
  show (do
    let m ← jsNumberOfPart ['1', '2']
    let d ← jsNumberOfPart ['3', '1']
    dateUTC year m d) = some ⟨year, 12, 31⟩
  rw [show jsNumberOfPart ['1', '2'] = some 12 by decide]
  show (do
    let d ← jsNumberOfPart ['3', '1']
    dateUTC year 12 d) = some ⟨year, 12, 31⟩
  rw [show jsNumberOfPart ['3', '1'] = some 31 by decide]
  show dateUTC year 12 31 = some ⟨year, 12, 31⟩
  exact dateUTC_dec31 year h1 h2

/-- C3: for every per-year-mode input that passes `validateYearRemainInput`,
`calculateYearRemain` computes tenure as of December 31 of the target year,
and the yearly grant in days is `min(13 - hireMonth, 11)` when the tenure
years are below 1 and the hire year equals the target year,
`min(totalMonths, 11)` when the tenure years are below 1 and the hire year is
earlier, and `getYearlyDays(tenureYears)` otherwise — without the 11-day
cumulative baseline of lifetime mode. -/
theorem claim_C3_year_remain (input : YearRemainInput)
    (hv : (validateYearRemainInput input).isValid = true) :
    ∃ (r : YearRemainResult) (h : JDate),
      calculateYearRemain input = .ok r ∧
      parseDate input.hireDate = some h ∧
      r.tenureYears = (servicePeriodOf h ⟨input.year, 12, 31⟩).years ∧
      r.yearlyGrantDays =
        (if (servicePeriodOf h ⟨input.year, 12, 31⟩).years < 1 then
          if h.y = input.year then min (13 - h.m) 11
          else min (servicePeriodOf h ⟨input.year, 12, 31⟩).totalMonths 11
        else getYearlyDays (servicePeriodOf h ⟨input.year, 12, 31⟩).years) := by
  obtain ⟨hy1, hy2, hhire⟩ := validateYearRemainInput_facts input hv
  obtain ⟨h, hph, hfmt⟩ := parse_of_valid _ hhire
  obtain ⟨hyo, hmo⟩ := hire_accessors_of_valid _ h hhire hph hfmt
  have hpy := parseDate_yearEnd input.year hy1 hy2
  have hsp : calculateServicePeriod input.hireDate (intToString input.year ++ "-12-31") =
      some (servicePeriodOf h ⟨input.year, 12, 31⟩) :=
    calculateServicePeriod_eq _ _ _ _ hph hpy
  cases hcr : calculateYearRemain input with
  | error e =>
    exfalso
    simp only [calculateYearRemain, hv] at hcr
    rw [if_neg (by simp), hsp] at hcr
    exact absurd hcr (by simp)
  | ok r =>
    have hcr' := hcr
    simp only [calculateYearRemain, hv] at hcr'
    rw [if_neg (by simp), hsp] at hcr'
    rw [Except.ok.injEq] at hcr'
    refine ⟨r, h, rfl, hph, ?_, ?_⟩
    · rw [← hcr']
    rw [← hcr']
    show (if (servicePeriodOf h ⟨input.year, 12, 31⟩).years < 1 then
        if hireYearOf input.hireDate = some input.year then
          match hireMonthOf input.hireDate with
          | some hireMonth => min (12 - hireMonth + 1) 11
          | none => 0
        else min (servicePeriodOf h ⟨input.year, 12, 31⟩).totalMonths 11
      else getYearlyDays (servicePeriodOf h ⟨input.year, 12, 31⟩).years) = _
    rw [hyo, hmo]
    by_cases hlt : (servicePeriodOf h ⟨input.year, 12, 31⟩).years < 1
    · rw [if_pos hlt, if_pos hlt]
      by_cases heq : h.y = input.year
      · rw [if_pos (by rw [heq]), if_pos heq]
        show min (12 - h.m + 1) 11 = min (13 - h.m) 11
        have h13 : 12 - h.m + 1 = 13 - h.m := by ring
        rw [h13]
      · rw [if_neg (by simpa using heq), if_neg heq]
    · rw [if_neg hlt, if_neg hlt]

/-- Witness for C3 at a 2022 hire with target year 2024 (tenure 2 years,
grant `getYearlyDays 2 = 15`). -/
theorem claim_C3_year_remain_witness :
    ∃ (r : YearRemainResult) (h : JDate),
      calculateYearRemain ⟨2024, "2022-01-01", 5, 8, [⟨"2024-01-15", 8⟩], ⟨"DEFAULT"⟩⟩ =
        .ok r ∧
      parseDate "2022-01-01" = some h ∧
      r.tenureYears = (servicePeriodOf h ⟨(2024 : ℤ), 12, 31⟩).years ∧
      r.yearlyGrantDays =
        (if (servicePeriodOf h ⟨(2024 : ℤ), 12, 31⟩).years < 1 then
          if h.y = (2024 : ℤ) then min (13 - h.m) 11
          else min (servicePeriodOf h ⟨(2024 : ℤ), 12, 31⟩).totalMonths 11
        else getYearlyDays (servicePeriodOf h ⟨(2024 : ℤ), 12, 31⟩).years) :=
  claim_C3_year_remain ⟨2024, "2022-01-01", 5, 8, [⟨"2024-01-15", 8⟩], ⟨"DEFAULT"⟩⟩
    (by with_unfolding_all decide)
